import Mathlib

/-!
Verification development for the Uber-pickups dashboard
(`src/Aula_01/app.py`).

The file shallowly embeds the data-processing core of the app — the
`load_data` loader, the sidebar filter pipeline, the `hour_counts` and
`quantized` aggregations, the guarded map midpoint, and the CSV export —
and proves the design-level properties about them.

Modelling conventions:
* timestamps are whole seconds since the epoch (`Int`), tz-naive;
* numeric cells are rationals (`Rat`); a cell that is null or fails
  `errors="coerce"` parsing is `none`;
* a pandas DataFrame is a list of column names plus a list of rows.
-/

namespace UberApp

/-- A tz-naive timestamp: whole seconds since the epoch. -/
abbrev Timestamp := Int

/-- The epoch day of a timestamp, `dt.date` (floor division by 86400). -/
def dateOf (ts : Timestamp) : Int := Int.fdiv ts 86400

/-- The hour-of-day of a timestamp, `dt.hour`. -/
def hourOf (ts : Timestamp) : Nat := (ts % 86400).toNat / 3600

/-- Day names for `dt.day_name()`; epoch day 0 (1970-01-01) was a Thursday. -/
def dayNames : List String :=
  ["Thursday", "Friday", "Saturday", "Sunday", "Monday", "Tuesday", "Wednesday"]

/-- The day name of a timestamp, `dt.day_name()`. -/
def weekdayOf (ts : Timestamp) : String :=
  dayNames.getD (dateOf ts % 7).toNat ""

/-- One raw CSV row, seen after the element-level coercions of
`pd.to_datetime(..., errors="coerce")` and `pd.to_numeric(..., errors="coerce")`:
`none` stands for a null cell or a value those coercions turn into NaT/NaN. -/
structure RawRow where
  dateTime : Option Timestamp
  lat : Option Rat
  lon : Option Rat
  base : Option String
deriving DecidableEq, Repr

/-- A raw DataFrame: the column names as read, plus the rows. -/
structure RawTable where
  cols : List String
  rows : List RawRow
deriving DecidableEq, Repr

/-- A canonical record: one row of the loader's output. -/
structure CanonRow where
  datetime : Timestamp
  lat : Rat
  lon : Rat
  base : String
  date : Int
  hour : Nat
  weekday : String
deriving DecidableEq, Repr

/-- The canonical table: normalized column names plus canonical rows. -/
structure CanonTable where
  cols : List String
  rows : List CanonRow
deriving DecidableEq, Repr

/-- Python `str.lower()`: lower-case every character. -/
def pyLower (s : String) : String := String.mk (s.data.map Char.toLower)

/-- Python `str.upper()`: upper-case every character. -/
def pyUpper (s : String) : String := String.mk (s.data.map Char.toUpper)

/-- Python `str.strip()`: drop leading and trailing whitespace. -/
def pyStrip (s : String) : String :=
  String.mk (((s.data.dropWhile Char.isWhitespace).reverse.dropWhile
    Char.isWhitespace).reverse)

/-- Column-name normalization: `str(c).strip().lower()` (app.py line 42). -/
def normName (c : String) : String := pyLower (pyStrip c)

/-- Effect of `astype(str)` on a base cell: a missing value (NaN) prints as "nan". -/
def strOfCell : Option String → String
  | none => "nan"
  | some s => s

/-- The row-level content of `load_data`: a row survives the two `dropna`
calls iff its datetime, lat and lon all parsed; `base` is normalized with
`.str.strip().str.upper()` when the column exists, else the constant
"UNKNOWN"; `date`, `hour`, `weekday` are derived from the datetime. -/
def loadRow (hb : Bool) (r : RawRow) : Option CanonRow :=
  match r.dateTime, r.lat, r.lon with
  | some ts, some la, some lo =>
      some { datetime := ts, lat := la, lon := lo,
             base := if hb then pyUpper (pyStrip (strOfCell r.base)) else "UNKNOWN",
             date := dateOf ts, hour := hourOf ts, weekday := weekdayOf ts }
  | _, _, _ => none

/-- Loader `load_data` (app.py lines 33–69): lower-case and trim every column name,
raise listing the available columns when `date/time` is absent, drop rows
whose datetime/lat/lon fail to parse, rename `date/time` to `datetime`,
append the derived `date`, `hour`, `weekday` columns, and normalize `base`
in place when present or append a constant "UNKNOWN" column when absent. -/
def load_data (t : RawTable) : Except (List String) CanonTable :=
  let ncols := t.cols.map normName
  if ncols.contains "date/time" then
    let hb := ncols.contains "base"
    Except.ok
      { cols := (ncols.map fun c => if c == "date/time" then "datetime" else c)
                  ++ ["date", "hour", "weekday"]
                  ++ (if hb then [] else ["base"]),
        rows := t.rows.filterMap (loadRow hb) }
  else
    Except.error ncols

/-- The sidebar filter state: `chosen_dates` when it is a 2-tuple (else
`none`), and the `hours` and `base_sel` multiselect lists (empty list =
no restriction). -/
structure FilterSpec where
  dates : Option (Int × Int)
  hours : List Nat
  bases : List String
deriving DecidableEq, Repr

/-- Date-range mask (app.py lines 144–146). -/
def dateFiltered (rows : List CanonRow) (d : Option (Int × Int)) : List CanonRow :=
  match d with
  | some (a, b) => rows.filter fun r => decide (a ≤ r.date) && decide (r.date ≤ b)
  | none => rows

/-- Hour mask (app.py lines 147–148): applied only when `hours` is nonempty. -/
def hourFiltered (rows : List CanonRow) (hs : List Nat) : List CanonRow :=
  if hs.isEmpty then rows else rows.filter fun r => hs.contains r.hour

/-- Base mask (app.py lines 149–150): applied only when `base_sel` is nonempty. -/
def baseFiltered (rows : List CanonRow) (bs : List String) : List CanonRow :=
  if bs.isEmpty then rows else rows.filter fun r => bs.contains r.base

/-- Filter pipeline `filtered` (app.py lines 143–150): the three masks in sequence. -/
def filtered (rows : List CanonRow) (s : FilterSpec) : List CanonRow :=
  baseFiltered (hourFiltered (dateFiltered rows s.dates) s.hours) s.bases

/-- The filtered view as a table (same columns, subset of rows). -/
def filteredTable (t : CanonTable) (s : FilterSpec) : CanonTable :=
  { cols := t.cols, rows := filtered t.rows s }

/-- Aggregation `hour_counts` (app.py lines 187–192): group the rows by hour, take the
size of each group, and sort ascending by hour. -/
def hour_counts (rows : List CanonRow) : List (Nat × Nat) :=
  ((rows.map CanonRow.hour).dedup.insertionSort (· ≤ ·)).map
    fun h => (h, (rows.map CanonRow.hour).count h)

/-- Rounding `.round(3)`: round a coordinate to 3 decimal digits. -/
def roundCoord (x : Rat) : Rat := (round (x * 1000) : Int) / 1000

/-- Descending-by-count order on location buckets. -/
def countGE (a b : Rat × Rat × Nat) : Prop := b.2.2 ≤ a.2.2

instance : DecidableRel countGE := fun a b => Nat.decLe b.2.2 a.2.2

instance : IsTotal (Rat × Rat × Nat) countGE := ⟨fun a b => Nat.le_total b.2.2 a.2.2⟩

instance : IsTrans (Rat × Rat × Nat) countGE :=
  ⟨fun _ _ _ h1 h2 => Nat.le_trans h2 h1⟩

/-- The bucket key of each row: its lat/lon rounded to 3 digits
(`filtered.assign(lat_q=..., lon_q=...)`, app.py line 210). -/
def bucketKeys (rows : List CanonRow) : List (Rat × Rat) :=
  rows.map fun r => (roundCoord r.lat, roundCoord r.lon)

/-- The grouped sizes: one entry per distinct bucket, with its row count
(`.groupby(["lat_q", "lon_q"]).size()`, app.py lines 211–212). -/
def bucketCounts (rows : List CanonRow) : List (Rat × Rat × Nat) :=
  (bucketKeys rows).dedup.map fun q => (q.1, q.2, (bucketKeys rows).count q)

/-- Aggregation `quantized` (app.py lines 209–215): bucket every row by its rounded
lat/lon, group by bucket and count, sort descending by count, keep the
top 10. -/
def quantized (rows : List CanonRow) : List (Rat × Rat × Nat) :=
  ((bucketCounts rows).insertionSort countGE).take 10

/-- The map tab's centroid (app.py lines 220–227): `none` when the filtered
table is empty (the guard), otherwise the mean lat/lon (`np.average`). -/
def midpoint (rows : List CanonRow) : Option (Rat × Rat) :=
  if rows.isEmpty then none
  else some ((rows.map CanonRow.lat).sum / rows.length,
             (rows.map CanonRow.lon).sum / rows.length)

/-- One CSV cell of `to_csv`, selected by column name. -/
def cellOf (r : CanonRow) (c : String) : String :=
  if c = "datetime" then toString r.datetime
  else if c = "lat" then toString r.lat
  else if c = "lon" then toString r.lon
  else if c = "base" then r.base
  else if c = "date" then toString r.date
  else if c = "hour" then toString r.hour
  else if c = "weekday" then r.weekday
  else ""

/-- Export `filtered.to_csv(index=False)` (app.py line 237): a header line naming
every column of the exported table, then one line per row. -/
def to_csv (t : CanonTable) : List String :=
  (String.intercalate "," t.cols)
    :: t.rows.map fun r => String.intercalate "," (t.cols.map (cellOf r))

/-- Values `min_date, max_date` (app.py line 125): the dates of the minimum and
maximum datetime of the unfiltered loaded table. -/
def dateWindow (rows : List CanonRow) : Option (Int × Int) :=
  match (rows.map CanonRow.datetime).min?, (rows.map CanonRow.datetime).max? with
  | some a, some b => some (dateOf a, dateOf b)
  | _, _ => none

/-- The KPI row (app.py lines 171–178): the filtered row count, the filtered
distinct-day and distinct-base counts, and the date-window label, which is
computed from the unfiltered table. -/
def kpis (t : CanonTable) (s : FilterSpec) :
    Nat × Nat × Nat × Option (Int × Int) :=
  let f := filtered t.rows s
  (f.length, (f.map CanonRow.date).dedup.length,
    (f.map CanonRow.base).dedup.length, dateWindow t.rows)

/-! ### Concrete example data -/

/-- A one-row raw table in the shape of the Uber CSV; the timestamp is
2014-09-01 00:02:00, i.e. epoch second 1409529720. -/
def exRaw : RawTable :=
  { cols := ["Date/Time", "Lat", "Lon", "Base"],
    rows := [⟨some 1409529720, some (40.7521 : Rat), some (-73.9914 : Rat), some "b02512"⟩] }

/-- The canonical row `load_data` produces from `exRaw`'s single row. -/
def exCanonRow : CanonRow :=
  { datetime := 1409529720, lat := 40.7521, lon := -73.9914,
    base := "B02512", date := 16314, hour := 0, weekday := "Monday" }

/-- The canonical table `load_data` produces from `exRaw`. -/
def exCanon : CanonTable :=
  { cols := ["datetime", "lat", "lon", "base", "date", "hour", "weekday"],
    rows := [exCanonRow] }

theorem load_exRaw : load_data exRaw = Except.ok exCanon := by rfl

/-- An arbitrary canonical row at a given hour, for filter experiments. -/
def rowAtHour (h : Nat) : CanonRow :=
  { datetime := 0, lat := 0, lon := 0, base := "B02512",
    date := 0, hour := h, weekday := "Thursday" }

/-! ### Theorems -/

/-- The total size of the hour groups is the number of rows. -/
theorem hour_counts_sum (rows : List CanonRow) :
    ((hour_counts rows).map Prod.snd).sum = rows.length := by
  unfold hour_counts
  rw [List.map_map]
  have h1 : (Prod.snd ∘ fun h => (h, (rows.map CanonRow.hour).count h))
      = fun h => (rows.map CanonRow.hour).count h := rfl
  rw [h1]
  have h2 := List.perm_insertionSort (α := Nat) (· ≤ ·) (rows.map CanonRow.hour).dedup
  rw [(h2.map fun h => (rows.map CanonRow.hour).count h).sum_eq]
  rw [List.sum_map_count_dedup_eq_length]
  simp

/-- C2: for every canonical table and every filter spec, the counts produced
by `hour_counts` on the filtered table sum to the number of filtered rows. -/
theorem hour_counts_sum_filtered (rows : List CanonRow) (s : FilterSpec) :
    ((hour_counts (filtered rows s)).map Prod.snd).sum = (filtered rows s).length :=
  hour_counts_sum (filtered rows s)

/-- C10: the date-window KPI label is computed from the unfiltered loaded
table, so two filter specs applied to the same table display the same label. -/
theorem kpi_window_filter_independent (t : CanonTable) (s1 s2 : FilterSpec) :
    (kpis t s1).2.2.2 = (kpis t s2).2.2.2 := rfl

/-- C5: `quantized` returns at most 10 entries, every count is positive,
and the entries are sorted non-increasing by count. -/
theorem quantized_spec (rows : List CanonRow) :
    (quantized rows).length ≤ 10 ∧
    (∀ e ∈ quantized rows, 0 < e.2.2) ∧
    (quantized rows).Sorted countGE := by
  unfold quantized
  refine ⟨?_, ?_, ?_⟩
  · rw [List.length_take]
    exact Nat.min_le_left _ _
  · intro e he
    have h1 : e ∈ (bucketCounts rows).insertionSort countGE :=
      List.mem_of_mem_take he
    have h2 : e ∈ bucketCounts rows :=
      (List.perm_insertionSort countGE (bucketCounts rows)).mem_iff.mp h1
    unfold bucketCounts at h2
    obtain ⟨q, hq, hqe⟩ := List.mem_map.mp h2
    have hmem : q ∈ bucketKeys rows := List.mem_dedup.mp hq
    have : 0 < (bucketKeys rows).count q := List.count_pos_iff.mpr hmem
    rw [← hqe]
    exact this
  · exact List.Pairwise.sublist (List.take_sublist _ _)
      (List.sorted_insertionSort countGE (bucketCounts rows))

/-- Witness for C5 at a concrete one-row table. -/
theorem quantized_spec_witness :
    (quantized [rowAtHour 0]).length ≤ 10 ∧
    0 < ((0 : Rat), (0 : Rat), (1 : Nat)).2.2 :=
  ⟨(quantized_spec [rowAtHour 0]).1,
   (quantized_spec [rowAtHour 0]).2.1 (0, 0, 1)
     (by simp [quantized, bucketCounts, bucketKeys, rowAtHour, roundCoord,
               List.insertionSort])⟩

/-- The derived hour of any timestamp is at most 23. -/
theorem hourOf_le (ts : Timestamp) : hourOf ts ≤ 23 := by
  unfold hourOf
  omega

/-- Bool membership test agrees with propositional membership. -/
theorem contains_iff (l : List String) (a : String) :
    l.contains a = true ↔ a ∈ l :=
  List.elem_iff

/-- C1: every row of a successfully loaded table has an hour in [0,23], a
base that is the strip-then-uppercase image of some string, and datetime,
lat and lon coming from raw cells on which every parse succeeded
(non-null). -/
theorem load_data_row_invariants (t : RawTable) (ct : CanonTable) (r : CanonRow)
    (hload : load_data t = Except.ok ct) (hr : r ∈ ct.rows) :
    r.hour ≤ 23 ∧ (∃ s, r.base = pyUpper (pyStrip s)) ∧
    ∃ raw ∈ t.rows, raw.dateTime = some r.datetime ∧
      raw.lat = some r.lat ∧ raw.lon = some r.lon := by
  by_cases hc : (t.cols.map normName).contains "date/time" = true
  · simp only [load_data, hc, if_true] at hload
    have hct := Except.ok.inj hload
    rw [← hct] at hr
    simp only at hr
    obtain ⟨raw, hraw, hrow⟩ := List.mem_filterMap.mp hr
    rcases h1 : raw.dateTime with _ | ts
    · simp [loadRow, h1] at hrow
    rcases h2 : raw.lat with _ | la
    · simp [loadRow, h1, h2] at hrow
    rcases h3 : raw.lon with _ | lo
    · simp [loadRow, h1, h2, h3] at hrow
    simp only [loadRow, h1, h2, h3, Option.some.injEq] at hrow
    refine ⟨?_, ?_, raw, hraw, ?_⟩
    · rw [← hrow]
      exact hourOf_le ts
    · rw [← hrow]
      by_cases hb : (t.cols.map normName).contains "base" = true
      · exact ⟨strOfCell raw.base, if_pos hb⟩
      · exact ⟨"UNKNOWN", if_neg hb⟩
    · rw [← hrow]
      exact ⟨h1, h2, h3⟩
  · simp only [Bool.not_eq_true] at hc
    simp only [load_data, hc, Bool.false_eq_true, if_false] at hload
    exact Except.noConfusion hload

/-- Witness for C1 at the concrete one-row Uber table. -/
theorem load_data_row_invariants_witness :
    exCanonRow.hour ≤ 23 ∧ (∃ s, exCanonRow.base = pyUpper (pyStrip s)) ∧
    ∃ raw ∈ exRaw.rows, raw.dateTime = some exCanonRow.datetime ∧
      raw.lat = some exCanonRow.lat ∧ raw.lon = some exCanonRow.lon :=
  load_data_row_invariants exRaw exCanon exCanonRow load_exRaw
    (List.mem_singleton.mpr rfl)

/-- C4: a spec whose date range spans every row, with empty hour and base
sets, filters to the identity. -/
theorem filter_identity (rows : List CanonRow) (s : FilterSpec) (a b : Int)
    (hd : s.dates = some (a, b)) (hh : s.hours = []) (hb : s.bases = [])
    (hspan : ∀ r ∈ rows, a ≤ r.date ∧ r.date ≤ b) :
    filtered rows s = rows := by
  unfold filtered
  rw [hd, hh, hb]
  unfold baseFiltered hourFiltered
  simp only [List.isEmpty_nil, if_true]
  unfold dateFiltered
  exact List.filter_eq_self.mpr fun r hr => by
    have h := hspan r hr
    simp [h.1, h.2]

/-- Witness for C4 at a concrete one-row table. -/
theorem filter_identity_witness :
    filtered [rowAtHour 5] ⟨some (0, 0), [], []⟩ = [rowAtHour 5] :=
  filter_identity [rowAtHour 5] ⟨some (0, 0), [], []⟩ 0 0 rfl rfl rfl
    (by intro r hr; rw [List.mem_singleton.mp hr]; exact ⟨le_refl 0, le_refl 0⟩)

/-- C6: loading succeeds exactly when the normalized (lower-cased, trimmed)
column names contain "date/time"; when it fails, the error payload is the
list of normalized column names actually present in the input. -/
theorem load_data_schema_check (t : RawTable) :
    ((load_data t).isOk = true ↔ "date/time" ∈ t.cols.map normName) ∧
    ((load_data t).isOk = false →
      load_data t = Except.error (t.cols.map normName)) := by
  by_cases hc : (t.cols.map normName).contains "date/time" = true
  · have hmem := (contains_iff _ _).mp hc
    simp only [load_data, hc, if_true]
    exact ⟨⟨fun _ => hmem, fun _ => rfl⟩, fun h => by simp [Except.isOk, Except.toBool] at h⟩
  · have hmem : ¬ "date/time" ∈ t.cols.map normName := fun h =>
      hc ((contains_iff _ _).mpr h)
    simp only [Bool.not_eq_true] at hc
    simp only [load_data, hc]
    refine ⟨⟨fun h => by simp [Except.isOk, Except.toBool] at h, fun h => absurd h hmem⟩,
      fun _ => by simp⟩

/-- A raw table with no timestamp column, for the C6 witness. -/
def badRaw : RawTable := { cols := ["DateTime", " Lat "], rows := [] }

/-- Witness for C6: a table without a "date/time" column errors out listing
the normalized columns present. -/
theorem load_data_schema_check_witness :
    load_data badRaw = Except.error ["datetime", "lat"] :=
  (load_data_schema_check badRaw).2 (by rfl)

/-- A raw table whose base column holds a missing value, for C9. -/
def exRawNan : RawTable :=
  { cols := ["Date/Time", "Lat", "Lon", "Base"],
    rows := [⟨some 0, some 0, some 0, none⟩] }

/-- The canonical table `load_data` produces from `exRawNan`. -/
def exCanonNan : CanonTable :=
  { cols := ["datetime", "lat", "lon", "base", "date", "hour", "weekday"],
    rows := [{ datetime := 0, lat := 0, lon := 0, base := "NAN",
               date := 0, hour := 0, weekday := "Thursday" }] }

/-- C9: a row whose base cell is missing loads with base "NAN" when the
base column is present (and "UNKNOWN" only when the column is absent);
"NAN" is not the "UNKNOWN" sentinel. -/
theorem base_missing_nan (t : RawTable) (ct : CanonTable) (raw : RawRow)
    (ts : Timestamp) (la lo : Rat)
    (hload : load_data t = Except.ok ct)
    (hraw : raw ∈ t.rows) (h1 : raw.dateTime = some ts)
    (h2 : raw.lat = some la) (h3 : raw.lon = some lo) (h4 : raw.base = none) :
    (∃ r ∈ ct.rows, r.datetime = ts ∧ r.lat = la ∧ r.lon = lo ∧
      r.base = (if (t.cols.map normName).contains "base" then "NAN"
                else "UNKNOWN")) ∧
    "NAN" ≠ "UNKNOWN" := by
  refine ⟨?_, by decide⟩
  by_cases hc : (t.cols.map normName).contains "date/time" = true
  · simp only [load_data, hc, if_true] at hload
    have hct := Except.ok.inj hload
    rw [← hct]
    simp only
    by_cases hb : (t.cols.map normName).contains "base" = true
    · refine ⟨CanonRow.mk ts la lo "NAN" (dateOf ts) (hourOf ts) (weekdayOf ts),
        List.mem_filterMap.mpr ⟨raw, hraw, ?_⟩, rfl, rfl, rfl, (if_pos hb).symm⟩
      simp only [loadRow, h1, h2, h3, h4]
      rw [if_pos hb]
      rfl
    · refine ⟨CanonRow.mk ts la lo "UNKNOWN" (dateOf ts) (hourOf ts) (weekdayOf ts),
        List.mem_filterMap.mpr ⟨raw, hraw, ?_⟩, rfl, rfl, rfl, (if_neg hb).symm⟩
      simp only [loadRow, h1, h2, h3, h4]
      rw [if_neg hb]
  · simp only [Bool.not_eq_true] at hc
    simp only [load_data, hc, Bool.false_eq_true, if_false] at hload
    exact Except.noConfusion hload

/-- Witness for C9 at the concrete missing-base table. -/
theorem base_missing_nan_witness :
    (∃ r ∈ exCanonNan.rows, r.datetime = 0 ∧ r.lat = 0 ∧ r.lon = 0 ∧
      r.base = (if (exRawNan.cols.map normName).contains "base" then "NAN"
                else "UNKNOWN")) ∧
    "NAN" ≠ "UNKNOWN" :=
  base_missing_nan exRawNan exCanonNan ⟨some 0, some 0, some 0, none⟩ 0 0 0
    (by rfl) (List.mem_singleton.mpr rfl) rfl rfl rfl rfl

/-! ### Filter monotonicity (C3) -/

/-- Spec `s2` narrows `s1` by shrinking the hour set only. -/
def narrowsHours (s1 s2 : FilterSpec) : Prop :=
  s2.dates = s1.dates ∧ s2.bases = s1.bases ∧ s2.hours ≠ [] ∧ s2.hours ⊆ s1.hours

/-- Spec `s2` narrows `s1` by shrinking the base set only. -/
def narrowsBases (s1 s2 : FilterSpec) : Prop :=
  s2.dates = s1.dates ∧ s2.hours = s1.hours ∧ s2.bases ≠ [] ∧ s2.bases ⊆ s1.bases

/-- Spec `s2` narrows `s1` by tightening the date range only. -/
def narrowsDates (s1 s2 : FilterSpec) : Prop :=
  s2.hours = s1.hours ∧ s2.bases = s1.bases ∧
    ∃ a1 b1 a2 b2, s1.dates = some (a1, b1) ∧ s2.dates = some (a2, b2) ∧
      a1 ≤ a2 ∧ b2 ≤ b1

theorem hourFiltered_sublist_mono {l l' : List CanonRow} (h : List.Sublist l l')
    (hs : List Nat) : List.Sublist (hourFiltered l hs) (hourFiltered l' hs) := by
  unfold hourFiltered
  split
  · exact h
  · exact h.filter _

theorem baseFiltered_sublist_mono {l l' : List CanonRow} (h : List.Sublist l l')
    (bs : List String) : List.Sublist (baseFiltered l bs) (baseFiltered l' bs) := by
  unfold baseFiltered
  split
  · exact h
  · exact h.filter _

theorem dateFiltered_narrow (rows : List CanonRow) (a1 b1 a2 b2 : Int)
    (ha : a1 ≤ a2) (hb : b2 ≤ b1) :
    List.Sublist (dateFiltered rows (some (a2, b2))) (dateFiltered rows (some (a1, b1))) := by
  unfold dateFiltered
  refine List.monotone_filter_right rows fun r hr => ?_
  simp only [Bool.and_eq_true, decide_eq_true_eq] at hr ⊢
  exact ⟨le_trans ha hr.1, le_trans hr.2 hb⟩

theorem hourFiltered_narrow (rows : List CanonRow) (hs1 hs2 : List Nat)
    (hne : hs2 ≠ []) (hsub : hs2 ⊆ hs1) :
    List.Sublist (hourFiltered rows hs2) (hourFiltered rows hs1) := by
  have h1ne : hs1 ≠ [] := by
    intro h
    rw [h] at hsub
    cases hs2 with
    | nil => exact hne rfl
    | cons a t => exact absurd (hsub (List.mem_cons_self a t)) (List.not_mem_nil a)
  unfold hourFiltered
  rw [if_neg (by simp [List.isEmpty_iff, hne]),
    if_neg (by simp [List.isEmpty_iff, h1ne])]
  exact List.monotone_filter_right rows fun r hr =>
    List.elem_iff.mpr (hsub (List.elem_iff.mp hr))

theorem baseFiltered_narrow (rows : List CanonRow) (bs1 bs2 : List String)
    (hne : bs2 ≠ []) (hsub : bs2 ⊆ bs1) :
    List.Sublist (baseFiltered rows bs2) (baseFiltered rows bs1) := by
  have h1ne : bs1 ≠ [] := by
    intro h
    rw [h] at hsub
    cases bs2 with
    | nil => exact hne rfl
    | cons a t => exact absurd (hsub (List.mem_cons_self a t)) (List.not_mem_nil a)
  unfold baseFiltered
  rw [if_neg (by simp [List.isEmpty_iff, hne]),
    if_neg (by simp [List.isEmpty_iff, h1ne])]
  exact List.monotone_filter_right rows fun r hr =>
    List.elem_iff.mpr (hsub (List.elem_iff.mp hr))

/-- C3 counterexample: shrinking the hour set from `[5]` to the empty set is
a smaller hour set with the other predicate sets unchanged, yet the filtered
row count grows from 1 to 2, because an empty multiselect disables the
predicate instead of rejecting every row. -/
theorem filtered_mono_counterexample :
    (FilterSpec.mk none [] []).hours ⊆ (FilterSpec.mk none [5] []).hours ∧
    (FilterSpec.mk none [] []).dates = (FilterSpec.mk none [5] []).dates ∧
    (FilterSpec.mk none [] []).bases = (FilterSpec.mk none [5] []).bases ∧
    ¬ ((filtered [rowAtHour 5, rowAtHour 6] (FilterSpec.mk none [] [])).length ≤
       (filtered [rowAtHour 5, rowAtHour 6] (FilterSpec.mk none [5] [])).length) := by
  refine ⟨List.nil_subset _, rfl, rfl, ?_⟩
  decide

/-- C3 (amended): narrowing exactly one predicate of a filter spec never
increases the filtered row count, provided the narrowed hour or base set
stays nonempty (an empty multiselect disables its predicate) and the date
range stays present. -/
theorem filtered_length_mono (rows : List CanonRow) (s1 s2 : FilterSpec)
    (h : narrowsHours s1 s2 ∨ narrowsBases s1 s2 ∨ narrowsDates s1 s2) :
    (filtered rows s2).length ≤ (filtered rows s1).length := by
  have hsub : List.Sublist (filtered rows s2) (filtered rows s1) := by
    rcases h with ⟨hd, hb, hne, hs⟩ | ⟨hd, hh, hne, hs⟩ |
      ⟨hh, hb, a1, b1, a2, b2, hd1, hd2, ha, hb2⟩
    · unfold filtered
      rw [hd, hb]
      exact baseFiltered_sublist_mono (hourFiltered_narrow _ _ _ hne hs) _
    · unfold filtered
      rw [hd, hh]
      exact baseFiltered_narrow _ _ _ hne hs
    · unfold filtered
      rw [hh, hb, hd1, hd2]
      exact baseFiltered_sublist_mono
        (hourFiltered_sublist_mono (dateFiltered_narrow _ _ _ _ _ ha hb2) _) _
  exact hsub.length_le

/-- Witness for the amended C3: narrowing the hour set `[5, 6]` to `[5]`. -/
theorem filtered_length_mono_witness :
    (filtered [rowAtHour 5, rowAtHour 6] (FilterSpec.mk none [5] [])).length ≤
      (filtered [rowAtHour 5, rowAtHour 6] (FilterSpec.mk none [5, 6] [])).length :=
  filtered_length_mono [rowAtHour 5, rowAtHour 6]
    (FilterSpec.mk none [5, 6] []) (FilterSpec.mk none [5] [])
    (Or.inl ⟨rfl, rfl, by decide, by decide⟩)

/-! ### CSV export columns (C7) -/

/-- C7 counterexample: `to_csv` is applied to the whole filtered table, so
for the standard Uber schema the exported header also carries the derived
`date` column, not only the six columns the claim lists. -/
theorem csv_columns_counterexample :
    load_data exRaw = Except.ok exCanon ∧
    (to_csv (filteredTable exCanon (FilterSpec.mk none [] []))).head? =
      some "datetime,lat,lon,base,date,hour,weekday" ∧
    "datetime,lat,lon,base,date,hour,weekday" ≠ "datetime,lat,lon,base,hour,weekday" :=
  ⟨by rfl, by rfl, by decide⟩

/-- C7 (amended): for every raw table with the standard normalized schema
(date/time, lat, lon, base) and every filter spec, the CSV export has a
textual header row listing exactly the filtered table's columns — datetime,
lat, lon, base, date, hour, weekday, i.e. the six claimed columns plus the
derived `date` — followed by one line per filtered row. -/
theorem csv_columns_amended (t : RawTable) (ct : CanonTable) (s : FilterSpec)
    (hcols : t.cols.map normName = ["date/time", "lat", "lon", "base"])
    (hload : load_data t = Except.ok ct) :
    (to_csv (filteredTable ct s)).head? =
      some "datetime,lat,lon,base,date,hour,weekday" ∧
    (to_csv (filteredTable ct s)).length = (filtered ct.rows s).length + 1 := by
  simp only [load_data] at hload
  rw [hcols] at hload
  rw [if_pos (by rfl :
    (["date/time", "lat", "lon", "base"].contains "date/time") = true)] at hload
  cases Except.ok.inj hload
  exact ⟨by rfl, by simp [to_csv, filteredTable]⟩

/-- Witness for the amended C7 at the concrete one-row Uber table. -/
theorem csv_columns_amended_witness :
    (to_csv (filteredTable exCanon (FilterSpec.mk none [] []))).head? =
      some "datetime,lat,lon,base,date,hour,weekday" ∧
    (to_csv (filteredTable exCanon (FilterSpec.mk none [] []))).length =
      (filtered exCanon.rows (FilterSpec.mk none [] [])).length + 1 :=
  csv_columns_amended exRaw exCanon (FilterSpec.mk none [] []) (by rfl) (by rfl)

/-! ### Graceful degradation on the empty filtered table (C8) -/

/-- C8: when the filtered table is empty, the hourly counts and the top
location buckets are empty sequences, the map centroid is guarded to
`none`, and the CSV export is header-only. -/
theorem empty_filtered_graceful (t : CanonTable) (s : FilterSpec)
    (h : filtered t.rows s = []) :
    hour_counts (filtered t.rows s) = [] ∧
    quantized (filtered t.rows s) = [] ∧
    midpoint (filtered t.rows s) = none ∧
    to_csv (filteredTable t s) = [String.intercalate "," t.cols] := by
  refine ⟨?_, ?_, ?_, ?_⟩ <;>
    simp [h, hour_counts, quantized, bucketCounts, bucketKeys, midpoint,
      to_csv, filteredTable, List.insertionSort]

/-- Witness for C8: filtering the one-row table to hour 7 empties it. -/
theorem empty_filtered_graceful_witness :
    hour_counts (filtered exCanon.rows (FilterSpec.mk none [7] [])) = [] ∧
    quantized (filtered exCanon.rows (FilterSpec.mk none [7] [])) = [] ∧
    midpoint (filtered exCanon.rows (FilterSpec.mk none [7] [])) = none ∧
    to_csv (filteredTable exCanon (FilterSpec.mk none [7] [])) =
      [String.intercalate "," exCanon.cols] :=
  empty_filtered_graceful exCanon (FilterSpec.mk none [7] []) (by rfl)

end UberApp
